import Mathlib

/-!
Verification of the Neural Bridge LLM request gateway
(`backend/server.py`): context truncation, rate limiting, transport
retries, provider dialect dispatch, and the chat orchestration flow
(credit gating, metering, fallback, recording).

Python `dict` messages `\x7b"role": r, "content": c\x7d` are modelled as a
`Message` structure; character counts use `String.length`; machine floats
for timestamps and delays are modelled as exact rationals.
-/

namespace NeuralBridge

/-- A chat message, as the dicts produced by `_format_messages`:
`m.get("role", ...)` / `m.get("content", "")`. -/
structure Message where
  role : String
  content : String
deriving DecidableEq, Repr

/-- Python `len(m.get("content", ""))`. -/
def contentLen (m : Message) : Nat := m.content.length

/-- Python `sum(len(m.get("content", "")) for m in messages)`. -/
def totalChars (ms : List Message) : Nat := (ms.map contentLen).sum

/-- The `for msg in reversed(messages): ...` loop of
`LocalLLMClient._truncate_context`, lines 155-161: walk candidates
(already reversed, most recent first), keeping a message while
`remaining_chars - msg_len > 0`, inserting at index
`1 if result else 0`, and breaking at the first rejection. -/
def truncLoop : List Message → List Message → Int → List Message × Int
  | [], result, remaining => (result, remaining)
  | msg :: rest, result, remaining =>
    let msgLen : Int := contentLen msg
    if remaining - msgLen > 0 then
      truncLoop rest (result.insertIdx (if result.isEmpty then 0 else 1) msg)
        (remaining - msgLen)
    else
      (result, remaining)

/-- Characterization of the walk in `truncLoop`: the prefix of the
(already reversed) candidate list accepted before the `break` — a
message is kept while `remaining - len > 0`. Used to state what the
loop retains. -/
def keptMsgs : List Message → Int → List Message
  | [], _ => []
  | msg :: rest, rem =>
    if rem - (contentLen msg : Int) > 0 then
      msg :: keptMsgs rest (rem - contentLen msg)
    else []

/-- Lines 142-144 of `_truncate_context`: the singleton system message
kept aside when the first message has role `"system"`, else nothing. -/
def sysPart (ms : List Message) : List Message :=
  match ms with
  | m :: _ => if m.role = "system" then [m] else []
  | [] => []

/-- The value of the (reassigned) `messages` variable after the system
message has been split off (lines 142-144). -/
def historyAndLast (ms : List Message) : List Message :=
  match ms with
  | m :: tail => if m.role = "system" then tail else ms
  | [] => []

/-- Line 147, `last_message = messages[-1] if messages else None`, as
a zero- or one-element list. -/
def lastPart (ms : List Message) : List Message :=
  match (historyAndLast ms).getLast? with
  | some m => [m]
  | none => []

/-- The function `LocalLLMClient._truncate_context(messages, max_chars)`
(server.py lines 130-166). -/
def truncateContext (messages : List Message) (maxChars : Nat) : List Message :=
  if totalChars messages ≤ maxChars then
    messages
  else
    let sys := sysPart messages
    -- `last_message = messages[-1] if messages else None`
    let lastMsg : Option Message := (historyAndLast messages).getLast?
    -- `messages = messages[:-1] if messages else []`
    let middle : List Message := (historyAndLast messages).dropLast
    let remaining : Int :=
      (maxChars : Int) - (totalChars sys : Int) -
        (match lastMsg with | some lm => (contentLen lm : Int) | none => 0)
    let looped := truncLoop middle.reverse sys remaining
    match lastMsg with
    | some lm => looped.1 ++ [lm]
    | none => looped.1

/-- Helper for `wordCount`: counts the maximal non-whitespace runs of
a character list; `inWord` records whether the previous character was
part of a word. -/
def countWords : List Char → Bool → Nat
  | [], _ => 0
  | c :: rest, inWord =>
    if c.isWhitespace then countWords rest false
    else (if inWord then 0 else 1) + countWords rest true

/-- Python `len(s.split())`: the number of maximal whitespace-delimited
runs (splitting without an argument discards empty fragments). -/
def wordCount (s : String) : Nat := countWords s.data false

/-- The function `check_rate_limit` (server.py lines 346-361) acting on one user's
bucket: prune entries with `t > now - 60`, reject when
`len >= MAX_REQUESTS_PER_MINUTE`, otherwise append `now` and accept.
Returns (admitted?, new bucket contents). Timestamps are modelled as
exact rationals. -/
def checkRateLimit (maxRequestsPerMinute : Nat) (bucket : List Rat) (now : Rat) :
    Bool × List Rat :=
  let minuteAgo := now - 60
  let pruned := bucket.filter (fun t => minuteAgo < t)
  if maxRequestsPerMinute ≤ pruned.length then
    (false, pruned)
  else
    (true, pruned ++ [now])

/-! ## Provider dialect dispatch (`_get_endpoint`, payload building,
response parsing in `LocalLLMClient.generate`) -/

/-- The four endpoint keys of the `endpoints` dict in `_get_endpoint`. -/
inductive EndpointAction
  | chat
  | generate
  | models
  | health
deriving DecidableEq, Repr

/-- The `'ollama'` entry of the `endpoints` dict (lines 88-93). -/
def ollamaEndpoints (baseUrl : String) : EndpointAction → String
  | .chat => baseUrl ++ "/api/chat"
  | .generate => baseUrl ++ "/api/generate"
  | .models => baseUrl ++ "/api/tags"
  | .health => baseUrl ++ "/api/tags"

/-- The `'lmstudio'` entry of the `endpoints` dict (lines 94-99). -/
def lmstudioEndpoints (baseUrl : String) : EndpointAction → String
  | .chat => baseUrl ++ "/v1/chat/completions"
  | .generate => baseUrl ++ "/v1/completions"
  | .models => baseUrl ++ "/v1/models"
  | .health => baseUrl ++ "/v1/models"

/-- The `'llamacpp'` entry of the `endpoints` dict (lines 100-105). -/
def llamacppEndpoints (baseUrl : String) : EndpointAction → String
  | .chat => baseUrl ++ "/v1/chat/completions"
  | .generate => baseUrl ++ "/completion"
  | .models => baseUrl ++ "/v1/models"
  | .health => baseUrl ++ "/health"

/-- The function `_get_endpoint`: `endpoints.get(self.provider, endpoints['ollama'])`
— an unknown provider falls back to the ollama endpoint set. -/
def getEndpoint (baseUrl provider : String) (action : EndpointAction) : String :=
  if provider = "ollama" then ollamaEndpoints baseUrl action
  else if provider = "lmstudio" then lmstudioEndpoints baseUrl action
  else if provider = "llamacpp" then llamacppEndpoints baseUrl action
  else ollamaEndpoints baseUrl action

/-- The two wire payload shapes built in `generate` (lines 226-244):
ollama shape nests temperature and `num_predict` under `options`; every
other provider gets the OpenAI-compatible shape. -/
inductive WirePayload
  | ollamaShape (model : String) (messages : List Message) (stream : Bool)
      (temperature : Rat) (numPredict : Nat)
  | openaiShape (model : String) (messages : List Message)
      (temperature : Rat) (maxTokens : Nat) (stream : Bool)
deriving DecidableEq, Repr

/-- Line 227, `if self.provider == 'ollama': payload = ... else: ...`
(lines 227-244): the request-payload transform keyed on the provider. -/
def buildPayload (provider model : String) (messages : List Message)
    (temperature : Rat) (maxTokens : Nat) (stream : Bool) : WirePayload :=
  if provider = "ollama" then
    .ollamaShape model messages stream temperature maxTokens
  else
    .openaiShape model messages temperature maxTokens stream

/-- A parsed 200-response body, holding the two fields the two dialect
parsers would extract: `data["message"]["content"]` (ollama) and
`data["choices"][0]["message"]["content"]` (OpenAI-compatible). -/
structure WireBody where
  ollamaMessageContent : String
  openaiFirstChoiceContent : String
deriving DecidableEq, Repr

/-- The response transform of `generate` (lines 259-262): ollama reads
`message.content`, every other provider reads the first choice's
message content. -/
def parseChatBody (provider : String) (body : WireBody) : String :=
  if provider = "ollama" then body.ollamaMessageContent
  else body.openaiFirstChoiceContent

/-! ## Transport retry loop (`LocalLLMClient.generate`, lines 246-276) -/

/-- Outcome of one network attempt inside the retry loop. -/
inductive AttemptOutcome
  | httpResp (statusCode : Nat) (body : String)
  | timedOut
  | connectFailed
  | raised (msg : String)
deriving DecidableEq, Repr

/-- The `last_error` string recorded for a failed attempt
(lines 264-271). -/
def attemptError : AttemptOutcome → String
  | .httpResp s body => "HTTP " ++ toString s ++ ": " ++ body
  | .timedOut => "Request timed out"
  | .connectFailed => "Cannot connect to LLM server"
  | .raised msg => msg

/-- Line 256, `if response.status_code == 200`: the response body to
parse when the attempt succeeded, `none` for any transport failure or
non-200 status. -/
def attemptContent : AttemptOutcome → Option String
  | .httpResp s body => if s = 200 then some body else none
  | _ => none

/-- The `for attempt in range(LOCAL_LLM_RETRY_ATTEMPTS)` loop of
`generate`, run over the (pre-listed) outcomes of each attempt, with `i`
the 0-based index of the first listed attempt. Returns
(result, number of attempts made, sleeps performed between attempts).
A 200 response returns the parsed content; anything else records
`last_error` and, when another attempt remains, sleeps
`LOCAL_LLM_RETRY_DELAY * (attempt + 1)` before retrying. After the last
attempt it raises HTTP 503 with detail
`"LLM request failed: " ++ last_error`. -/
def generateTry (parseBody : String → String) (retryDelay : Rat) :
    List AttemptOutcome → Nat → Except (Nat × String) String × Nat × List Rat
  | [], _ => (.error (503, "LLM request failed: None"), 0, [])
  | [a], _ =>
    match attemptContent a with
    | some body => (.ok (parseBody body), 1, [])
    | none => (.error (503, "LLM request failed: " ++ attemptError a), 1, [])
  | a :: b :: rest, i =>
    match attemptContent a with
    | some body => (.ok (parseBody body), 1, [])
    | none =>
      let nxt := generateTry parseBody retryDelay (b :: rest) (i + 1)
      (nxt.1, nxt.2.1 + 1, retryDelay * ((i : Rat) + 1) :: nxt.2.2)

/-- The retry portion of `LocalLLMClient.generate`: the backend is a
function from attempt index to that attempt's outcome, tried
`retryAttempts` times. -/
def generateRetry (parseBody : String → String) (backend : Nat → AttemptOutcome)
    (retryAttempts : Nat) (retryDelay : Rat) :
    Except (Nat × String) String × Nat × List Rat :=
  generateTry parseBody retryDelay ((List.range retryAttempts).map backend) 0

/-! ## Chat orchestration (`chat_with_agent`, server.py lines 1039-1152) -/

/-- The keys of the `AGENTS` dict (lines 476-582). -/
def AGENT_IDS : List String :=
  ["design", "code", "test", "debug", "review", "architect", "security",
   "performance", "docs", "refactor", "deploy", "api", "database",
   "devops", "ux"]

/-- The system-settings fields `chat_with_agent` reads
(`DEFAULT_SETTINGS`, lines 371-377). -/
structure SystemSettings where
  creditsPer1kTokens : Nat
  minCreditsForChat : Nat
  localLLMFree : Bool
deriving DecidableEq, Repr

/-- Process configuration read by `chat_with_agent`. -/
structure ChatConfig where
  maxPromptSize : Nat
  localEnabled : Bool
  emergentKey : String
  localDefaultModel : String
deriving DecidableEq, Repr

/-- The fields of `ChatRequest` that drive the orchestration. -/
structure ChatReq where
  agentType : String
  message : String
  useLocalLLM : Bool
  model : Option String
deriving DecidableEq, Repr

/-- Behaviour of the collaborators during one `chat_with_agent` call:
the local client (`local_llm.generate`, whose failure is the HTTP 503
it raises after exhausting retries), the cloud client
(`chat.send_message`, whose failure is a generic exception), the
fallback cloud call, and whether the two persistence writes
(`db.users.update_one`, `db.chat_history.insert_one`) succeed or raise.
Reads (`db.users.find_one`) are modelled as infallible. -/
structure ChatEnv where
  rateOk : Bool
  localResult : Except String String
  cloudResult : Except String String
  fallbackResult : Except String String
  creditUpdateOk : Bool
  historyInsertOk : Bool
deriving Repr

/-- One `db.chat_history` document written by `chat_with_agent`
(lines 1113-1118). -/
structure HistoryRecord where
  userMessage : String
  agentResponse : String
  modelUsed : String
  usedLocalLLM : Bool
  creditsUsed : Nat
deriving DecidableEq, Repr

/-- A dispatch actually performed against a provider. -/
inductive DispatchEvent
  | localCall
  | cloudCall
  | fallbackCall
deriving DecidableEq, Repr

/-- The value `chat_with_agent` produces for the caller: either the
200-response dict (lines 1122-1126 or, on the fallback path,
1144-1148) or a raised `HTTPException` with a status code and detail. -/
inductive ChatOutcome
  | completed (response modelUsed : String) (usedLocalLLM : Bool)
      (creditsUsed : Nat) (remainingCredits : Int) (fallbackUsed : Bool)
  | failed (statusCode : Nat) (detail : String)
deriving DecidableEq, Repr

/-- Outcome plus the side effects of one call: the user's credit
balance afterwards, the chat-history records persisted by this call,
and the provider dispatches performed. -/
structure ChatResult where
  outcome : ChatOutcome
  balance : Int
  records : List HistoryRecord
  dispatches : List DispatchEvent
deriving DecidableEq, Repr

/-- Line 1066, `full_message = "\n".join(context_parts) + "\n\nRequest: ..."`
(line 1066). -/
def fullMessageOf (contextParts : List String) (message : String) : String :=
  String.intercalate "\n" contextParts ++ "\n\nRequest: " ++ message

/-- The generic `except Exception` handler of `chat_with_agent`
(lines 1130-1152): when the request used the local path and
`EMERGENT_LLM_KEY` is set, one fallback cloud attempt is made; its
success returns a completed result with model `"gpt-5.2 (fallback)"`,
zero credits and `remaining_credits` read from the *original* user
document; otherwise the handler raises HTTP 503. State accumulated
before the exception (balance, records) is kept as-is. -/
def handleChatException (useLocal : Bool) (cfg : ChatConfig) (env : ChatEnv)
    (excMsg : String) (origCredits balance : Int)
    (records : List HistoryRecord) (dispatches : List DispatchEvent) :
    ChatResult :=
  if useLocal && cfg.emergentKey ≠ "" then
    match env.fallbackResult with
    | .ok resp =>
      ⟨.completed resp "gpt-5.2 (fallback)" false 0 origCredits true,
        balance, records, dispatches ++ [.fallbackCall]⟩
    | .error _ =>
      ⟨.failed 503 ("LLM service unavailable: " ++ excMsg),
        balance, records, dispatches ++ [.fallbackCall]⟩
  else
    ⟨.failed 503 ("LLM service unavailable: " ++ excMsg),
      balance, records, dispatches⟩

/-- The tail of the `try` block after a successful dispatch
(lines 1105-1126): deduct credits when `credits_used > 0`, persist the
chat-history record, re-read the balance, and return the completed
response. A raising persistence write falls into the generic exception
handler (with whatever state was already committed). -/
def finishChat (useLocal : Bool) (cfg : ChatConfig) (env : ChatEnv)
    (message response modelUsed : String) (usedLocalLLM : Bool)
    (creditsUsed : Nat) (origCredits : Int)
    (dispatches : List DispatchEvent) : ChatResult :=
  if 0 < creditsUsed && !env.creditUpdateOk then
    handleChatException useLocal cfg env "db update_one raised"
      origCredits origCredits [] dispatches
  else
    let balance1 : Int :=
      if 0 < creditsUsed then origCredits - creditsUsed else origCredits
    if !env.historyInsertOk then
      handleChatException useLocal cfg env "db insert_one raised"
        origCredits balance1 [] dispatches
    else
      ⟨.completed response modelUsed usedLocalLLM creditsUsed balance1 false,
        balance1,
        [⟨message, response, modelUsed, usedLocalLLM, creditsUsed⟩],
        dispatches⟩

/-- The endpoint handler `chat_with_agent` (lines 1039-1152): agent validation, rate-limit
admission, prompt-size check, the pre-dispatch credit gate, dispatch to
the local or cloud provider, credit metering, persistence and the
fallback handler. `credits` is `user.get("credits", 0)` at entry. -/
def chatWithAgent (cfg : ChatConfig) (settings : SystemSettings)
    (req : ChatReq) (contextParts : List String) (credits : Int)
    (env : ChatEnv) : ChatResult :=
  if req.agentType ∉ AGENT_IDS then
    ⟨.failed 400 "Invalid agent type", credits, [], []⟩
  else if !env.rateOk then
    ⟨.failed 429 "Rate limit exceeded. Please wait a moment.", credits, [], []⟩
  else if cfg.maxPromptSize < req.message.length then
    ⟨.failed 400 "Message too large.", credits, [], []⟩
  else
    let fullMessage := fullMessageOf contextParts req.message
    let useLocal := req.useLocalLLM && cfg.localEnabled
    let localFree := settings.localLLMFree
    if (!useLocal || !localFree) && credits < (settings.minCreditsForChat : Int) then
      ⟨.failed 402 "Insufficient credits.", credits, [], []⟩
    else if useLocal then
      match env.localResult with
      | .error e =>
        -- `local_llm.generate` raised HTTPException(503, ...); the
        -- `except HTTPException: raise` clause (line 1128) re-raises it
        -- before the fallback handler can run.
        ⟨.failed 503 ("LLM request failed: " ++ e), credits, [], [.localCall]⟩
      | .ok response =>
        let modelUsed := req.model.getD cfg.localDefaultModel
        let creditsUsed : Nat :=
          if localFree then 0 else max 1 (wordCount fullMessage / 100)
        finishChat useLocal cfg env req.message response modelUsed true
          creditsUsed credits [.localCall]
    else
      match env.cloudResult with
      | .error e =>
        handleChatException useLocal cfg env e credits credits [] [.cloudCall]
      | .ok response =>
        let tokensUsed := wordCount fullMessage + wordCount response
        -- `max(1, int((tokens_used / 1000) * credits_per_1k))`,
        -- modelled with exact arithmetic as a floor division
        let creditsUsed : Nat :=
          max 1 (tokensUsed * settings.creditsPer1kTokens / 1000)
        finishChat useLocal cfg env req.message response "gpt-5.2" false
          creditsUsed credits [.cloudCall]

/-- The metering formula as the spec states it: zero when local
inference is used and policy marks it free, otherwise
`max 1 (floor ((words prompt + words response) * rate / 1000))` on
every non-free path. (Spec-side definition, for comparison with the
code's behaviour.) -/
def specCreditsCharged (useLocal localFree : Bool) (creditsPer1k : Nat)
    (prompt response : String) : Nat :=
  if useLocal && localFree then 0
  else max 1 ((wordCount prompt + wordCount response) * creditsPer1k / 1000)

/-- The metering formula `chat_with_agent` implements (lines 1089 and
1101-1103): zero when local and free; `max 1 (words(prompt) / 100)` on
the local non-free path — the response and the configured rate are
ignored there; the word-count/rate formula only on the cloud path. -/
def codeCreditsCharged (useLocal localFree : Bool) (creditsPer1k : Nat)
    (prompt response : String) : Nat :=
  if useLocal then
    if localFree then 0 else max 1 (wordCount prompt / 100)
  else
    max 1 ((wordCount prompt + wordCount response) * creditsPer1k / 1000)

/-! ## Theorems -/

/-- C9 counterexample: for the unknown provider kind `"vllm"`, the
endpoint URLs do default to the first-registered (ollama) dialect, but
the request payload takes the OpenAI-compatible shape, not ollama's,
and the response transform reads the OpenAI choice field, not ollama's
message field — so an unknown dialect does not behave like the
first-registered dialect end to end. -/
theorem unknownDialect_not_ollama_end_to_end :
    getEndpoint "http://localhost:11434" "vllm" .chat =
      getEndpoint "http://localhost:11434" "ollama" .chat ∧
    buildPayload "vllm" "m" [] 1 64 false ≠
      buildPayload "ollama" "m" [] 1 64 false ∧
    parseChatBody "vllm" ⟨"fromOllamaField", "fromOpenaiField"⟩ =
        "fromOpenaiField" ∧
    parseChatBody "ollama" ⟨"fromOllamaField", "fromOpenaiField"⟩ =
        "fromOllamaField" := by
  refine ⟨rfl, ?_, rfl, rfl⟩
  decide

/-- C9 (amended): an unknown provider kind defaults to the
first-registered (ollama) dialect's endpoint URLs, but its
request-payload and response transforms default to the
OpenAI-compatible shape. -/
theorem unknownDialect_mixed_defaults (provider : String)
    (h : provider ∉ (["ollama", "lmstudio", "llamacpp"] : List String)) :
    (∀ baseUrl action, getEndpoint baseUrl provider action =
        ollamaEndpoints baseUrl action) ∧
    (∀ model messages temperature maxTokens stream,
        buildPayload provider model messages temperature maxTokens stream =
          WirePayload.openaiShape model messages temperature maxTokens stream) ∧
    (∀ body, parseChatBody provider body = body.openaiFirstChoiceContent) := by
  simp only [List.mem_cons, List.not_mem_nil, or_false, not_or] at h
  obtain ⟨h1, h2, h3⟩ := h
  refine ⟨fun baseUrl action => ?_, fun model ms t mt s => ?_, fun body => ?_⟩
  · simp [getEndpoint, h1, h2, h3]
  · simp [buildPayload, h1]
  · simp [parseChatBody, h1]

/-- Witness for `unknownDialect_mixed_defaults` at provider `"vllm"`. -/
theorem unknownDialect_mixed_defaults_witness :
    getEndpoint "http://h" "vllm" .models = ollamaEndpoints "http://h" .models ∧
    buildPayload "vllm" "m" [] 1 64 true =
      WirePayload.openaiShape "m" [] 1 64 true ∧
    parseChatBody "vllm" ⟨"a", "b"⟩ = "b" := by
  have h := unknownDialect_mixed_defaults "vllm" (by decide)
  exact ⟨h.1 "http://h" .models, h.2.1 "m" [] 1 64 true, h.2.2 ⟨"a", "b"⟩⟩

/-- C1 (code bug): a `preferLocal` chat request whose local dispatch
fails — `local_llm.generate` raising HTTP 503 after exhausting its
retries — is re-raised by the `except HTTPException: raise` clause
before the cloud-fallback handler can run, even though
`EMERGENT_LLM_KEY` is configured and the fallback call would succeed.
The caller gets `failed 503`, not a completed fallback result. -/
theorem localFailure_is_reraised_before_fallback :
    chatWithAgent ⟨32000, true, "sk-test-key", "llama3.2"⟩ ⟨10, 5, true⟩
        ⟨"code", "hi", true, none⟩ ["User: alice"] 100
        ⟨true, .error "Cannot connect to LLM server", .ok "cloud",
          .ok "fallback pong", true, true⟩ =
      ⟨.failed 503 "LLM request failed: Cannot connect to LLM server",
        100, [], [.localCall]⟩ := by
  rfl

/-- C6: when the chosen path is not free — cloud, or local with the
local-is-free policy off — and the balance is below
`min_credits_for_chat`, the request fails with HTTP 402 before any
dispatch: no balance change, no usage record, no provider call. -/
theorem insufficientCredits_rejected_before_dispatch
    (cfg : ChatConfig) (settings : SystemSettings) (req : ChatReq)
    (contextParts : List String) (credits : Int) (env : ChatEnv)
    (hAgent : req.agentType ∈ AGENT_IDS) (hRate : env.rateOk = true)
    (hSize : req.message.length ≤ cfg.maxPromptSize)
    (hPath : (req.useLocalLLM && cfg.localEnabled) = false ∨
      settings.localLLMFree = false)
    (hCredits : credits < (settings.minCreditsForChat : Int)) :
    chatWithAgent cfg settings req contextParts credits env =
      ⟨.failed 402 "Insufficient credits.", credits, [], []⟩ := by
  unfold chatWithAgent
  rw [if_neg (by simp [hAgent]), if_neg (by simp [hRate]),
    if_neg (by omega), if_pos]
  rcases hPath with h | h <;> simp [h, hCredits]

/-- Witness for `insufficientCredits_rejected_before_dispatch`: the
spec scenario — balance 2, non-free path, threshold 5. -/
theorem insufficientCredits_witness :
    chatWithAgent ⟨32000, true, "sk-test-key", "llama3.2"⟩ ⟨10, 5, true⟩
        ⟨"code", "hi", false, none⟩ ["User: alice"] 2
        ⟨true, .ok "pong", .ok "cloud", .ok "fb", true, true⟩ =
      ⟨.failed 402 "Insufficient credits.", 2, [], []⟩ :=
  insufficientCredits_rejected_before_dispatch _ _ _ _ _ _
    (by decide) rfl (by decide) (by left; rfl) (by decide)

/-- C5 counterexample: with the local-is-free policy off, a successful
local completion (4-word prompt, 1-word response, rate 3000 credits
per 1k tokens) charges `max 1 (4 / 100) = 1` credit, while the claimed
formula `max 1 ((4 + 1) * 3000 / 1000)` gives 15 — on the local
non-free path the response words and the configured rate are ignored. -/
theorem localNotFree_metering_cx :
    (chatWithAgent ⟨32000, true, "", "llama3.2"⟩ ⟨3000, 5, false⟩
        ⟨"code", "hi", true, none⟩ ["User: alice"] 100
        ⟨true, .ok "pong", .ok "cloud", .ok "fb", true, true⟩).outcome =
      .completed "pong" "llama3.2" true 1 99 false ∧
    specCreditsCharged true false 3000
        (fullMessageOf ["User: alice"] "hi") "pong" = 15 ∧
    (1 : Nat) ≠ 15 := by
  refine ⟨by decide, by decide, by decide⟩

/-- C5 (amended): on every successful primary completion the credits
charged follow `codeCreditsCharged`: zero when local and free,
`max 1 (words(prompt) / 100)` when local and not free, and
`max 1 ((words(prompt) + words(response)) * rate / 1000)` on the cloud
path; the charge is deducted from the balance and recorded. -/
theorem chat_metering_amended (cfg : ChatConfig) (settings : SystemSettings)
    (req : ChatReq) (contextParts : List String) (credits : Int)
    (env : ChatEnv) (resp : String)
    (hAgent : req.agentType ∈ AGENT_IDS) (hRate : env.rateOk = true)
    (hSize : req.message.length ≤ cfg.maxPromptSize)
    (hGate : (req.useLocalLLM && cfg.localEnabled && settings.localLLMFree)
        = true ∨ (settings.minCreditsForChat : Int) ≤ credits)
    (hDispatch :
      (req.useLocalLLM && cfg.localEnabled) = true ∧
          env.localResult = .ok resp ∨
        (req.useLocalLLM && cfg.localEnabled) = false ∧
          env.cloudResult = .ok resp)
    (hUpd : env.creditUpdateOk = true) (hIns : env.historyInsertOk = true) :
    chatWithAgent cfg settings req contextParts credits env =
      ⟨.completed resp
          (if req.useLocalLLM && cfg.localEnabled then
            req.model.getD cfg.localDefaultModel else "gpt-5.2")
          (req.useLocalLLM && cfg.localEnabled)
          (codeCreditsCharged (req.useLocalLLM && cfg.localEnabled)
            settings.localLLMFree settings.creditsPer1kTokens
            (fullMessageOf contextParts req.message) resp)
          (credits - codeCreditsCharged (req.useLocalLLM && cfg.localEnabled)
            settings.localLLMFree settings.creditsPer1kTokens
            (fullMessageOf contextParts req.message) resp) false,
        credits - codeCreditsCharged (req.useLocalLLM && cfg.localEnabled)
          settings.localLLMFree settings.creditsPer1kTokens
          (fullMessageOf contextParts req.message) resp,
        [⟨req.message, resp,
          (if req.useLocalLLM && cfg.localEnabled then
            req.model.getD cfg.localDefaultModel else "gpt-5.2"),
          req.useLocalLLM && cfg.localEnabled,
          codeCreditsCharged (req.useLocalLLM && cfg.localEnabled)
            settings.localLLMFree settings.creditsPer1kTokens
            (fullMessageOf contextParts req.message) resp⟩],
        [if req.useLocalLLM && cfg.localEnabled then .localCall
          else .cloudCall]⟩ := by
  have hsz : ¬ (cfg.maxPromptSize < req.message.length) := not_lt.mpr hSize
  rcases hDispatch with ⟨hUL, hres⟩ | ⟨hUL, hres⟩
  · rcases hfree : settings.localLLMFree with _ | _
    · have hmin : (settings.minCreditsForChat : Int) ≤ credits := by
        rcases hGate with h | h
        · rw [hUL, hfree] at h; exact absurd h (by simp)
        · exact h
      have hnlt : ¬ (credits < (settings.minCreditsForChat : Int)) :=
        not_lt.mpr hmin
      have hpos : 0 < max 1
          (wordCount (fullMessageOf contextParts req.message) / 100) :=
        lt_of_lt_of_le one_pos (le_max_left _ _)
      simp [chatWithAgent, finishChat, codeCreditsCharged, hAgent, hRate,
        hsz, hUL, hfree, hres, hUpd, hIns, hnlt, hpos]
    · simp [chatWithAgent, finishChat, codeCreditsCharged, hAgent, hRate,
        hsz, hUL, hfree, hres, hUpd, hIns]
  · have hmin : (settings.minCreditsForChat : Int) ≤ credits := by
      rcases hGate with h | h
      · rw [hUL] at h; exact absurd h (by simp)
      · exact h
    have hnlt : ¬ (credits < (settings.minCreditsForChat : Int)) :=
      not_lt.mpr hmin
    have hpos : 0 < max 1
        ((wordCount (fullMessageOf contextParts req.message) +
          wordCount resp) * settings.creditsPer1kTokens / 1000) :=
      lt_of_lt_of_le one_pos (le_max_left _ _)
    simp [chatWithAgent, finishChat, codeCreditsCharged, hAgent, hRate,
      hsz, hUL, hres, hUpd, hIns, hnlt, hpos]

/-- Witness for `chat_metering_amended`: local free path, prompt
`"hi"`, response `"pong"` — completed with zero credits charged and
the balance unchanged. -/
theorem chat_metering_amended_witness :
    chatWithAgent ⟨32000, true, "sk-key", "llama3.2"⟩ ⟨10, 5, true⟩
        ⟨"code", "hi", true, none⟩ ["User: alice"] 100
        ⟨true, .ok "pong", .ok "cloud", .ok "fb", true, true⟩ =
      ⟨.completed "pong" "llama3.2" true 0 100 false, 100,
        [⟨"hi", "pong", "llama3.2", true, 0⟩], [.localCall]⟩ := by
  have h := chat_metering_amended ⟨32000, true, "sk-key", "llama3.2"⟩
    ⟨10, 5, true⟩ ⟨"code", "hi", true, none⟩ ["User: alice"] 100
    ⟨true, .ok "pong", .ok "cloud", .ok "fb", true, true⟩ "pong"
    (by decide) rfl (by decide) (Or.inl rfl) (Or.inl ⟨rfl, rfl⟩) rfl rfl
  simpa [codeCreditsCharged] using h

/-- What the generic exception handler can produce: it never persists a
record beyond what it was handed, keeps the balance it was handed, and
any completed outcome it produces is the zero-credit fallback one. -/
theorem handleChatException_spec (u : Bool) (cfg : ChatConfig) (env : ChatEnv)
    (msg : String) (o b : Int) (recs : List HistoryRecord)
    (disp : List DispatchEvent) :
    (handleChatException u cfg env msg o b recs disp).records = recs ∧
    (handleChatException u cfg env msg o b recs disp).balance = b ∧
    (∀ resp m l c rem fb,
      (handleChatException u cfg env msg o b recs disp).outcome =
        ChatOutcome.completed resp m l c rem fb → fb = true ∧ c = 0) := by
  unfold handleChatException
  split
  · split <;> simp_all
  · simp

/-- What the post-dispatch tail can produce: a primary completion
persists exactly one record and applies the deduction; a fallback
completion charges nothing and keeps the records it reached the
handler with (none); a failure keeps no record and, when the history
write did not raise, leaves the balance at its entry value. -/
theorem finishChat_spec (u : Bool) (cfg : ChatConfig) (env : ChatEnv)
    (msg resp mu : String) (ul : Bool) (c : Nat) (orig : Int)
    (disp : List DispatchEvent) :
    (∀ resp' m l c' rem,
      (finishChat u cfg env msg resp mu ul c orig disp).outcome =
        ChatOutcome.completed resp' m l c' rem false →
      (finishChat u cfg env msg resp mu ul c orig disp).records =
          [⟨msg, resp', m, l, c'⟩] ∧
        (finishChat u cfg env msg resp mu ul c orig disp).balance =
          orig - c') ∧
    (∀ resp' m l c' rem,
      (finishChat u cfg env msg resp mu ul c orig disp).outcome =
        ChatOutcome.completed resp' m l c' rem true →
      (finishChat u cfg env msg resp mu ul c orig disp).records = [] ∧
        c' = 0) ∧
    (∀ s d,
      (finishChat u cfg env msg resp mu ul c orig disp).outcome =
        ChatOutcome.failed s d →
      (finishChat u cfg env msg resp mu ul c orig disp).records = [] ∧
        (env.historyInsertOk = true →
          (finishChat u cfg env msg resp mu ul c orig disp).balance =
            orig)) := by
  by_cases hc : 0 < c
  · rcases hupd : env.creditUpdateOk with _ | _
    · have hred : finishChat u cfg env msg resp mu ul c orig disp =
          handleChatException u cfg env "db update_one raised" orig orig
            [] disp := by
        simp [finishChat, hupd, hc]
      obtain ⟨hr, hb, hco⟩ := handleChatException_spec u cfg env
        "db update_one raised" orig orig [] disp
      rw [hred]
      refine ⟨?_, ?_, ?_⟩
      · intro resp' m l c' rem h
        exact absurd ((hco resp' m l c' rem false h).1) (by simp)
      · intro resp' m l c' rem h
        exact ⟨hr, (hco resp' m l c' rem true h).2⟩
      · intro s d h
        exact ⟨hr, fun _ => hb⟩
    · rcases hins : env.historyInsertOk with _ | _
      · have hred : finishChat u cfg env msg resp mu ul c orig disp =
            handleChatException u cfg env "db insert_one raised" orig
              (orig - (c : Int)) [] disp := by
          simp [finishChat, hupd, hins, hc]
        obtain ⟨hr, hb, hco⟩ := handleChatException_spec u cfg env
          "db insert_one raised" orig (orig - (c : Int)) [] disp
        rw [hred]
        refine ⟨?_, ?_, ?_⟩
        · intro resp' m l c' rem h
          exact absurd ((hco resp' m l c' rem false h).1) (by simp)
        · intro resp' m l c' rem h
          exact ⟨hr, (hco resp' m l c' rem true h).2⟩
        · intro s d h
          exact ⟨hr, fun htrue => absurd htrue (by simp)⟩
      · have hred : finishChat u cfg env msg resp mu ul c orig disp =
            ⟨.completed resp mu ul c (orig - (c : Int)) false,
              orig - (c : Int), [⟨msg, resp, mu, ul, c⟩], disp⟩ := by
          simp [finishChat, hupd, hins, hc]
        rw [hred]
        refine ⟨?_, ?_, ?_⟩
        · intro resp' m l c' rem h
          simp only [ChatOutcome.completed.injEq] at h
          obtain ⟨h1, h2, h3, h4, h5, h6⟩ := h
          subst h1; subst h2; subst h3; subst h4
          exact ⟨rfl, rfl⟩
        · intro resp' m l c' rem h
          simp only [ChatOutcome.completed.injEq] at h
          exact absurd h.2.2.2.2.2 (by simp)
        · intro s d h
          exact absurd h (by simp)
  · have hc0 : c = 0 := Nat.eq_zero_of_not_pos hc
    subst hc0
    rcases hins : env.historyInsertOk with _ | _
    · have hred : finishChat u cfg env msg resp mu ul 0 orig disp =
          handleChatException u cfg env "db insert_one raised" orig orig
            [] disp := by
        simp [finishChat, hins]
      obtain ⟨hr, hb, hco⟩ := handleChatException_spec u cfg env
        "db insert_one raised" orig orig [] disp
      rw [hred]
      refine ⟨?_, ?_, ?_⟩
      · intro resp' m l c' rem h
        exact absurd ((hco resp' m l c' rem false h).1) (by simp)
      · intro resp' m l c' rem h
        exact ⟨hr, (hco resp' m l c' rem true h).2⟩
      · intro s d h
        exact ⟨hr, fun htrue => absurd htrue (by simp)⟩
    · have hred : finishChat u cfg env msg resp mu ul 0 orig disp =
          ⟨.completed resp mu ul 0 orig false, orig,
            [⟨msg, resp, mu, ul, 0⟩], disp⟩ := by
        simp [finishChat, hins]
      rw [hred]
      refine ⟨?_, ?_, ?_⟩
      · intro resp' m l c' rem h
        simp only [ChatOutcome.completed.injEq] at h
        obtain ⟨h1, h2, h3, h4, h5, h6⟩ := h
        subst h1; subst h2; subst h3; subst h4
        exact ⟨rfl, by simp⟩
      · intro resp' m l c' rem h
        simp only [ChatOutcome.completed.injEq] at h
        exact absurd h.2.2.2.2.2 (by simp)
      · intro s d h
        exact absurd h (by simp)

/-- C7 counterexample: a fallback-completed chat — local call succeeds,
the history write raises, the configured fallback succeeds — returns a
Completed outcome with no usage record persisted at all (and the
successful local response is discarded in favour of the fallback's). -/
theorem fallbackCompleted_persists_no_record_cx :
    chatWithAgent ⟨32000, true, "sk-key", "llama3.2"⟩ ⟨10, 5, true⟩
        ⟨"code", "hi", true, none⟩ ["User: alice"] 100
        ⟨true, .ok "local pong", .ok "cloud", .ok "fb pong", true, false⟩ =
      ⟨.completed "fb pong" "gpt-5.2 (fallback)" false 0 100 true,
        100, [], [.localCall, .fallbackCall]⟩ := by
  rfl

/-- C7 (amended): a primary Completed outcome persists exactly one
usage record and applies the credit delta to the balance; a fallback
Completed outcome charges zero credits and persists no record; a
Failed outcome persists no record and, provided the history write did
not raise mid-flight, leaves the balance unchanged. -/
theorem chat_record_and_balance (cfg : ChatConfig) (settings : SystemSettings)
    (req : ChatReq) (contextParts : List String) (credits : Int)
    (env : ChatEnv) :
    (∀ resp m l c rem,
      (chatWithAgent cfg settings req contextParts credits env).outcome =
        ChatOutcome.completed resp m l c rem false →
      (chatWithAgent cfg settings req contextParts credits env).records =
          [⟨req.message, resp, m, l, c⟩] ∧
        (chatWithAgent cfg settings req contextParts credits env).balance =
          credits - c) ∧
    (∀ resp m l c rem,
      (chatWithAgent cfg settings req contextParts credits env).outcome =
        ChatOutcome.completed resp m l c rem true →
      (chatWithAgent cfg settings req contextParts credits env).records =
          [] ∧ c = 0) ∧
    (∀ s d,
      (chatWithAgent cfg settings req contextParts credits env).outcome =
        ChatOutcome.failed s d →
      (chatWithAgent cfg settings req contextParts credits env).records =
          [] ∧
        (env.historyInsertOk = true →
          (chatWithAgent cfg settings req contextParts credits env).balance =
            credits)) := by
  simp only [chatWithAgent]
  split
  · simp
  · split
    · simp
    · split
      · simp
      · split
        · simp
        · split
          · split
            · simp
            · exact finishChat_spec _ cfg env req.message _ _ true _ credits _
          · split
            · obtain ⟨hr, hb, hc⟩ :=
                handleChatException_spec
                  (req.useLocalLLM && cfg.localEnabled) cfg env _ credits
                  credits [] [DispatchEvent.cloudCall]
              refine ⟨?_, ?_, ?_⟩
              · intro resp m l c rem h
                exact absurd ((hc resp m l c rem false h).1) (by simp)
              · intro resp m l c rem h
                exact ⟨hr, (hc resp m l c rem true h).2⟩
              · intro s d h
                exact ⟨hr, fun _ => hb⟩
            · exact finishChat_spec _ cfg env req.message _ _ false _ credits _

/-- Witness for `chat_record_and_balance`: a concrete successful cloud
chat — 5 tokens at rate 10 charge the 1-credit minimum, one record is
persisted and the balance drops from 100 to 99. -/
theorem chat_record_and_balance_witness :
    (chatWithAgent ⟨32000, true, "sk-key", "llama3.2"⟩ ⟨10, 5, true⟩
        ⟨"code", "hi", false, none⟩ ["User: alice"] 100
        ⟨true, .ok "lp", .ok "cloud pong", .ok "fb", true, true⟩).records =
      [⟨"hi", "cloud pong", "gpt-5.2", false, 1⟩] ∧
    (chatWithAgent ⟨32000, true, "sk-key", "llama3.2"⟩ ⟨10, 5, true⟩
        ⟨"code", "hi", false, none⟩ ["User: alice"] 100
        ⟨true, .ok "lp", .ok "cloud pong", .ok "fb", true, true⟩).balance =
      100 - 1 := by
  have h := (chat_record_and_balance ⟨32000, true, "sk-key", "llama3.2"⟩
    ⟨10, 5, true⟩ ⟨"code", "hi", false, none⟩ ["User: alice"] 100
    ⟨true, .ok "lp", .ok "cloud pong", .ok "fb", true, true⟩).1
    "cloud pong" "gpt-5.2" false 1 99 (by decide)
  exact h

/-- C3: each admission check first prunes the bucket to the trailing
60-second window, then rejects without recording when at least `m`
timestamps remain, and otherwise records `now` and accepts; the
post-decision bucket never exceeds `m` entries (given it did not
before) and holds only timestamps within the window; once every
recorded timestamp is at least 60 seconds old, admission resumes. -/
theorem rateLimit_admission (m : Nat) (bucket : List Rat) (now : Rat)
    (hlen : bucket.length ≤ m) (hpast : ∀ t ∈ bucket, t ≤ now) :
    (m ≤ (bucket.filter (fun t => now - 60 < t)).length →
      checkRateLimit m bucket now =
        (false, bucket.filter (fun t => now - 60 < t))) ∧
    ((bucket.filter (fun t => now - 60 < t)).length < m →
      checkRateLimit m bucket now =
        (true, bucket.filter (fun t => now - 60 < t) ++ [now])) ∧
    (checkRateLimit m bucket now).2.length ≤ m ∧
    (∀ t ∈ (checkRateLimit m bucket now).2, now - 60 < t ∧ t ≤ now) ∧
    (∀ now2 : Rat, 0 < m →
      (∀ t ∈ (checkRateLimit m bucket now).2, t + 60 ≤ now2) →
      (checkRateLimit m (checkRateLimit m bucket now).2 now2).1 = true) := by
  have hplen : (bucket.filter (fun t => now - 60 < t)).length ≤
      bucket.length := List.length_filter_le _ _
  have hmemP : ∀ t ∈ bucket.filter (fun t => now - 60 < t),
      now - 60 < t ∧ t ≤ now := by
    intro t ht
    obtain ⟨htb, htf⟩ := List.mem_filter.mp ht
    exact ⟨by simpa using htf, hpast t htb⟩
  refine ⟨fun h => by simp [checkRateLimit, h], fun h => by
    simp [checkRateLimit, Nat.not_le.mpr h], ?_, ?_, ?_⟩
  · by_cases hle : m ≤ (bucket.filter (fun t => now - 60 < t)).length
    · have hres : checkRateLimit m bucket now =
          (false, bucket.filter (fun t => now - 60 < t)) := by
        simp [checkRateLimit, hle]
      rw [hres]
      exact le_trans hplen hlen
    · have hres : checkRateLimit m bucket now =
          (true, bucket.filter (fun t => now - 60 < t) ++ [now]) := by
        simp [checkRateLimit, hle]
      rw [hres]
      simp only [List.length_append, List.length_singleton]
      omega
  · intro t ht
    by_cases hle : m ≤ (bucket.filter (fun t => now - 60 < t)).length
    · rw [checkRateLimit] at ht
      simp only [if_pos hle] at ht
      exact hmemP t ht
    · rw [checkRateLimit] at ht
      simp only [if_neg hle, List.mem_append, List.mem_singleton] at ht
      rcases ht with ht | rfl
      · exact hmemP t ht
      · constructor
        · linarith
        · linarith
  · intro now2 hm h60
    have hempty : (checkRateLimit m bucket now).2.filter
        (fun t => now2 - 60 < t) = [] := by
      rw [List.filter_eq_nil_iff]
      intro t ht
      have := h60 t ht
      simp only [decide_eq_true_eq]
      intro hcontra
      linarith
    rw [checkRateLimit, hempty]
    rw [if_neg (by simp only [List.length_nil]; omega)]

/-- Witness for `rateLimit_admission`: ceiling 2, empty bucket, time 0
— the request is admitted and the bucket stays within the ceiling. -/
theorem rateLimit_admission_witness :
    (checkRateLimit 2 [] 0).1 = true ∧
    (checkRateLimit 2 [] 0).2.length ≤ 2 := by
  have h := rateLimit_admission 2 [] 0 (by decide)
    (by intro t ht; exact absurd ht (List.not_mem_nil t))
  refine ⟨?_, h.2.2.1⟩
  rw [h.2.1 (by decide)]

/-- Every attempt of `generateTry` over a list of all-failing outcomes:
the loop walks the whole list, sleeps `delay * (attempt + 1)` between
consecutive attempts, and ends with the HTTP 503 carrying the last
attempt's error. `i` is the index of the first listed attempt. -/
theorem generateTry_allFail (p : String → String) (d : Rat) :
    ∀ (l : List AttemptOutcome) (i : Nat) (hne : l ≠ [])
      (hf : ∀ a ∈ l, attemptContent a = none),
      generateTry p d l i =
        (.error (503, "LLM request failed: " ++ attemptError (l.getLast hne)),
          l.length,
          (List.range (l.length - 1)).map
            (fun k : Nat => d * ((i : Rat) + (k : Rat) + 1))) := by
  intro l
  induction l with
  | nil => intro i hne _; exact absurd rfl hne
  | cons a t ih =>
    intro i hne hf
    cases t with
    | nil =>
      have ha : attemptContent a = none := hf a (by simp)
      simp [generateTry, ha, List.getLast]
    | cons b r =>
      have ha : attemptContent a = none := hf a (by simp)
      have hne2 : b :: r ≠ [] := by simp
      have hf2 : ∀ x ∈ b :: r, attemptContent x = none := fun x hx =>
        hf x (List.mem_cons_of_mem a hx)
      have hrec := ih (i + 1) hne2 hf2
      simp only [generateTry, ha]
      rw [hrec]
      simp only [Prod.mk.injEq]
      refine ⟨?_, ?_, ?_⟩
      · rw [List.getLast_cons hne2]
      · simp
      · simp only [List.length_cons, Nat.add_sub_cancel,
          List.range_succ_eq_map, List.map_cons, List.map_map,
          List.cons.injEq]
        refine ⟨?_, ?_⟩
        · push_cast
          ring
        · apply List.map_congr_left
          intro k _
          simp only [Function.comp_apply]
          push_cast
          ring

/-- C4: a unary generate call against a backend failing on every
attempt (transport failure or non-200 status alike) makes exactly the
configured number of attempts, sleeps the linearly increasing — hence
non-decreasing — delays `d*1, d*2, ...` between consecutive attempts,
and raises HTTP 503 carrying the last attempt's error. -/
theorem transport_retry_exhaustion (p : String → String)
    (backend : Nat → AttemptOutcome) (N : Nat) (d : Rat)
    (hN : 0 < N) (hd : 0 ≤ d)
    (hfail : ∀ i < N, attemptContent (backend i) = none) :
    generateRetry p backend N d =
      (.error (503, "LLM request failed: " ++ attemptError (backend (N - 1))),
        N, (List.range (N - 1)).map (fun k : Nat => d * ((k : Rat) + 1))) ∧
    List.Chain' (· ≤ ·)
      ((List.range (N - 1)).map (fun k : Nat => d * ((k : Rat) + 1))) := by
  constructor
  · have hne : (List.range N).map backend ≠ [] := by
      simp only [ne_eq, List.map_eq_nil_iff, List.range_eq_nil]
      omega
    have hf : ∀ a ∈ (List.range N).map backend, attemptContent a = none := by
      intro a ha
      obtain ⟨j, hj, rfl⟩ := List.mem_map.mp ha
      exact hfail j (List.mem_range.mp hj)
    have h := generateTry_allFail p d ((List.range N).map backend) 0 hne hf
    unfold generateRetry
    rw [h]
    simp only [Prod.mk.injEq]
    refine ⟨?_, by simp, ?_⟩
    · have hlast : ((List.range N).map backend).getLast hne =
          backend (N - 1) := by
        rw [List.getLast_eq_getElem]
        rw [List.getElem_map]
        congr 1
        rw [List.getElem_range]
        simp
      rw [hlast]
    · simp only [List.length_map, List.length_range]
      apply List.map_congr_left
      intro k _
      push_cast
      ring
  · apply List.Pairwise.chain'
    rw [List.pairwise_map]
    refine (List.pairwise_lt_range _).imp ?_
    intro a b hab
    refine mul_le_mul_of_nonneg_left ?_ hd
    have : (a : Rat) < (b : Rat) := by exact_mod_cast hab
    linarith

/-- Witness for `transport_retry_exhaustion`: 3 attempts — a 500
status, a timeout, a connection failure — base delay 1: exactly 3
attempts, sleeps `[1, 2]`, and the 503 carries the last cause. -/
theorem transport_retry_exhaustion_witness :
    generateRetry id
        (fun i => if i = 0 then .httpResp 500 "oops"
          else if i = 1 then .timedOut else .connectFailed) 3 1 =
      (.error (503, "LLM request failed: Cannot connect to LLM server"),
        3, [1, 2]) := by
  have h := transport_retry_exhaustion id
    (fun i => if i = 0 then .httpResp 500 "oops"
      else if i = 1 then .timedOut else .connectFailed) 3 1
    (by decide) (by norm_num)
    (by intro i hi; interval_cases i <;> rfl)
  rw [h.1]
  norm_num [List.range_succ]
  rfl

/-! ## Context truncation lemmas -/

/-- Character totals add over list append. -/
theorem totalChars_append (l1 l2 : List Message) :
    totalChars (l1 ++ l2) = totalChars l1 + totalChars l2 := by
  simp [totalChars]

/-- The loop's insertion (`result.insert(1 if result else 0, msg)`)
adds exactly the inserted message's characters. -/
theorem totalChars_insertIdx01 (msg : Message) (res : List Message) :
    totalChars (res.insertIdx (if res.isEmpty then 0 else 1) msg) =
      totalChars res + contentLen msg := by
  cases res with
  | nil => simp [totalChars]
  | cons r rs =>
    simp only [List.isEmpty_cons, if_false, Bool.false_eq_true,
      List.insertIdx_succ_cons, List.insertIdx_zero, totalChars,
      List.map_cons, List.sum_cons]
    omega

/-- The loop preserves `remaining + totalChars result`. -/
theorem truncLoop_sum : ∀ (l res : List Message) (rem : Int),
    (truncLoop l res rem).2 + (totalChars (truncLoop l res rem).1 : Int) =
      rem + totalChars res := by
  intro l
  induction l with
  | nil => intro res rem; simp [truncLoop]
  | cons msg rest ih =>
    intro res rem
    by_cases h : rem - (contentLen msg : Int) > 0
    · simp only [truncLoop, if_pos h]
      rw [ih, totalChars_insertIdx01]
      push_cast
      ring
    · simp only [truncLoop, if_neg h]

/-- The loop's final `remaining` is either untouched or positive: a
message is only accepted when it leaves a positive remainder. -/
theorem truncLoop_remaining : ∀ (l res : List Message) (rem : Int),
    (truncLoop l res rem).2 = rem ∨ 0 < (truncLoop l res rem).2 := by
  intro l
  induction l with
  | nil => intro res rem; left; simp [truncLoop]
  | cons msg rest ih =>
    intro res rem
    by_cases h : rem - (contentLen msg : Int) > 0
    · simp only [truncLoop, if_pos h]
      rcases ih (res.insertIdx (if res.isEmpty then 0 else 1) msg)
        (rem - contentLen msg) with h2 | h2
      · right; rw [h2]; exact h
      · right; exact h2
    · left; simp only [truncLoop, if_neg h]

/-- With a non-positive budget the loop keeps nothing. -/
theorem truncLoop_nonpos (l res : List Message) (rem : Int)
    (h : rem ≤ 0) : truncLoop l res rem = (res, rem) := by
  cases l with
  | nil => simp [truncLoop]
  | cons msg rest =>
    have hneg : ¬ (rem - (contentLen msg : Int) > 0) := by omega
    simp only [truncLoop, if_neg hneg]

/-- Started from a non-empty `result`, the loop inserts every kept
message at index 1: the head stays, and the kept walk ends up reversed
(hence chronological) right after it. -/
theorem truncLoop_cons_struct : ∀ (l : List Message) (r0 : Message)
    (rs : List Message) (rem : Int),
    truncLoop l (r0 :: rs) rem =
      (r0 :: ((keptMsgs l rem).reverse ++ rs),
        rem - totalChars (keptMsgs l rem)) := by
  intro l
  induction l with
  | nil =>
    intro r0 rs rem
    simp [truncLoop, keptMsgs, totalChars]
  | cons msg rest ih =>
    intro r0 rs rem
    by_cases h : rem - (contentLen msg : Int) > 0
    · simp only [truncLoop, if_pos h, List.isEmpty_cons,
        Bool.false_eq_true, if_false, List.insertIdx_succ_cons,
        List.insertIdx_zero]
      rw [ih]
      simp only [keptMsgs, if_pos h, Prod.mk.injEq]
      constructor
      · simp
      · simp only [totalChars, List.map_cons, List.sum_cons]
        push_cast
        ring
    · simp only [truncLoop, if_neg h, keptMsgs]
      simp [totalChars]

/-- The kept walk is a sublist (an in-order subset) of the candidates. -/
theorem keptMsgs_sublist : ∀ (l : List Message) (rem : Int),
    (keptMsgs l rem).Sublist l := by
  intro l
  induction l with
  | nil => intro rem; simp [keptMsgs]
  | cons msg rest ih =>
    intro rem
    by_cases h : rem - (contentLen msg : Int) > 0
    · rw [keptMsgs, if_pos h]
      exact (ih (rem - contentLen msg)).cons₂ msg
    · rw [keptMsgs, if_neg h]
      exact List.nil_sublist _


/-- The system singleton and the kept-aside last message together never
weigh more than the whole list. -/
theorem sysPart_lastPart_le (ms : List Message) :
    totalChars (sysPart ms) + totalChars (lastPart ms) ≤ totalChars ms := by
  have hsplit : totalChars (sysPart ms) + totalChars (historyAndLast ms) =
      totalChars ms := by
    cases ms with
    | nil => simp [sysPart, historyAndLast, totalChars]
    | cons m tail =>
      by_cases h : m.role = "system"
      · simp [sysPart, historyAndLast, h, totalChars]
      · simp [sysPart, historyAndLast, h, totalChars]
  have hlast : totalChars (lastPart ms) ≤ totalChars (historyAndLast ms) := by
    cases hl : (historyAndLast ms).getLast? with
    | none => simp [lastPart, hl, totalChars]
    | some lm =>
      have hsplit2 := List.dropLast_append_getLast? lm hl
      calc totalChars (lastPart ms) = totalChars [lm] := by
            rw [lastPart, hl]
        _ ≤ totalChars ((historyAndLast ms).dropLast) + totalChars [lm] :=
            Nat.le_add_left _ _
        _ = totalChars ((historyAndLast ms).dropLast ++ [lm]) :=
            (totalChars_append _ _).symm
        _ = totalChars (historyAndLast ms) := by rw [hsplit2]
  omega

/-- Shape of the truncating branch of `_truncate_context`: the looped
result followed by the kept-aside last message. -/
theorem truncateContext_of_overflow (ms : List Message) (B : Nat)
    (htot : ¬ totalChars ms ≤ B) :
    truncateContext ms B =
      (truncLoop ((historyAndLast ms).dropLast).reverse (sysPart ms)
        ((B : Int) - totalChars (sysPart ms) - totalChars (lastPart ms))).1
        ++ lastPart ms := by
  rw [truncateContext, if_neg htot]
  cases hl : (historyAndLast ms).getLast? with
  | none => simp [hl, lastPart, totalChars]
  | some lm => simp [hl, lastPart, totalChars, contentLen]

/-- The non-truncating branch returns the input unchanged. -/
theorem truncateContext_of_le (ms : List Message) (B : Nat)
    (h : totalChars ms ≤ B) : truncateContext ms B = ms := by
  rw [truncateContext, if_pos h]

/-- Budget bound: when the system and last messages fit, the whole
output fits. -/
theorem truncateContext_within (ms : List Message) (B : Nat)
    (h : totalChars (sysPart ms) + totalChars (lastPart ms) ≤ B) :
    totalChars (truncateContext ms B) ≤ B := by
  by_cases htot : totalChars ms ≤ B
  · rw [truncateContext_of_le ms B htot]; exact htot
  · rw [truncateContext_of_overflow ms B htot, totalChars_append]
    have hsum := truncLoop_sum ((historyAndLast ms).dropLast).reverse
      (sysPart ms)
      ((B : Int) - totalChars (sysPart ms) - totalChars (lastPart ms))
    rcases truncLoop_remaining ((historyAndLast ms).dropLast).reverse
      (sysPart ms)
      ((B : Int) - totalChars (sysPart ms) - totalChars (lastPart ms)) with
      h2 | h2 <;> omega

/-- Overflow case: when even the system and last messages exceed the
budget, exactly those are emitted, un-truncated. -/
theorem truncateContext_overflow (ms : List Message) (B : Nat)
    (h : B < totalChars (sysPart ms) + totalChars (lastPart ms)) :
    truncateContext ms B = sysPart ms ++ lastPart ms := by
  have htot : ¬ totalChars ms ≤ B := by
    have := sysPart_lastPart_le ms
    omega
  rw [truncateContext_of_overflow ms B htot,
    truncLoop_nonpos _ _ _ (by omega)]

/-- C2: the Context Assembler's output length never exceeds the budget,
except when the system message plus the final message alone already
exceed it — then exactly those messages are emitted un-truncated. -/
theorem truncation_budget (ms : List Message) (B : Nat) :
    (totalChars (sysPart ms) + totalChars (lastPart ms) ≤ B →
      totalChars (truncateContext ms B) ≤ B) ∧
    (B < totalChars (sysPart ms) + totalChars (lastPart ms) →
      truncateContext ms B = sysPart ms ++ lastPart ms) :=
  ⟨truncateContext_within ms B, truncateContext_overflow ms B⟩

/-- Witness for `truncation_budget`: a truncating call that stays
within budget 5, and an overflowing call that emits exactly the system
and last messages. -/
theorem truncation_budget_witness :
    totalChars (truncateContext
      [⟨"system", "ss"⟩, ⟨"user", "aaaa"⟩, ⟨"user", "bb"⟩] 5) ≤ 5 ∧
    truncateContext [⟨"system", "sss"⟩, ⟨"user", "eee"⟩] 4 =
      sysPart [⟨"system", "sss"⟩, ⟨"user", "eee"⟩] ++
        lastPart [⟨"system", "sss"⟩, ⟨"user", "eee"⟩] := by
  constructor
  · exact (truncation_budget _ 5).1 (by decide)
  · exact (truncation_budget _ 4).2 (by decide)

/-- C8 counterexample: with no system message, budget 6 keeps `"bb"`
and `"cc"` of the history but emits them most-recent-first: the output
is not a sublist of the input, so the retained subset is not in
chronological order. -/
theorem truncation_order_cx :
    truncateContext [⟨"user", "aa"⟩, ⟨"user", "bb"⟩, ⟨"user", "cc"⟩,
        ⟨"user", "e"⟩] 6 =
      [⟨"user", "cc"⟩, ⟨"user", "bb"⟩, ⟨"user", "e"⟩] ∧
    ¬ (truncateContext [⟨"user", "aa"⟩, ⟨"user", "bb"⟩, ⟨"user", "cc"⟩,
        ⟨"user", "e"⟩] 6).Sublist
      [⟨"user", "aa"⟩, ⟨"user", "bb"⟩, ⟨"user", "cc"⟩, ⟨"user", "e"⟩] := by
  refine ⟨by decide, by decide⟩

/-- C8 (amended): when a system message is present (the first message
has role `"system"`), the truncated output is a sublist of the input —
the retained history appears in chronological order. Without a system
message this can fail. -/
theorem truncation_order_with_system (ms : List Message) (B : Nat)
    (hsys : ∃ m tail, ms = m :: tail ∧ m.role = "system") :
    (truncateContext ms B).Sublist ms := by
  obtain ⟨m, tail, rfl, hrole⟩ := hsys
  by_cases htot : totalChars (m :: tail) ≤ B
  · rw [truncateContext_of_le _ _ htot]
  · have hsp : sysPart (m :: tail) = [m] := by simp [sysPart, hrole]
    have hht : historyAndLast (m :: tail) = tail := by
      simp [historyAndLast, hrole]
    rw [truncateContext_of_overflow _ _ htot, hsp, hht]
    cases hl : tail.getLast? with
    | none =>
      have htail : tail = [] := by
        cases tail with
        | nil => rfl
        | cons x xs => simp [List.getLast?_eq_getLast] at hl
      subst htail
      rw [truncLoop_cons_struct]
      simp [lastPart, historyAndLast, hrole, keptMsgs]
    | some lm =>
      have hlast : lastPart (m :: tail) = [lm] := by
        simp [lastPart, hht, hl]
      rw [hlast, truncLoop_cons_struct]
      have htail : tail.dropLast ++ [lm] = tail :=
        List.dropLast_append_getLast? lm hl
      have hkept : ((keptMsgs tail.dropLast.reverse
          ((B : Int) - totalChars [m] - totalChars [lm])).reverse).Sublist
          tail.dropLast := by
        have h1 := (keptMsgs_sublist tail.dropLast.reverse
          ((B : Int) - totalChars [m] - totalChars [lm])).reverse
        simpa using h1
      have h2 : (((keptMsgs tail.dropLast.reverse
          ((B : Int) - totalChars [m] - totalChars [lm])).reverse ++ []) ++
            [lm]).Sublist (tail.dropLast ++ [lm]) := by
        simp only [List.append_nil]
        exact hkept.append (List.Sublist.refl [lm])
      rw [htail] at h2
      simpa using List.Sublist.cons₂ m h2

/-- Witness for `truncation_order_with_system`: a truncating call with
a system message whose output is a sublist of the input. -/
theorem truncation_order_with_system_witness :
    (truncateContext [⟨"system", "s"⟩, ⟨"user", "aa"⟩, ⟨"user", "bb"⟩,
        ⟨"user", "cc"⟩, ⟨"user", "e"⟩] 7).Sublist
      [⟨"system", "s"⟩, ⟨"user", "aa"⟩, ⟨"user", "bb"⟩,
        ⟨"user", "cc"⟩, ⟨"user", "e"⟩] :=
  truncation_order_with_system _ 7 ⟨⟨"system", "s"⟩, _, rfl, rfl⟩

/-- Shape of `sysPart`: empty, or a singleton system message. -/
theorem sysPart_shape (ms : List Message) :
    sysPart ms = [] ∨ ∃ s, sysPart ms = [s] ∧ s.role = "system" := by
  cases ms with
  | nil => left; rfl
  | cons m tail =>
    by_cases h : m.role = "system"
    · right; exact ⟨m, by simp [sysPart, h], h⟩
    · left; simp [sysPart, h]

/-- Shape of `lastPart`: empty or a singleton. -/
theorem lastPart_shape (ms : List Message) :
    lastPart ms = [] ∨ ∃ lm, lastPart ms = [lm] := by
  cases hl : (historyAndLast ms).getLast? with
  | none => left; simp [lastPart, hl]
  | some lm => right; exact ⟨lm, by simp [lastPart, hl]⟩

/-- C10: truncation is idempotent — truncating an already-truncated
list changes nothing; in particular an in-budget list is returned
unchanged. -/
theorem truncation_idempotent (ms : List Message) (B : Nat) :
    truncateContext (truncateContext ms B) B = truncateContext ms B := by
  by_cases htot : totalChars ms ≤ B
  · rw [truncateContext_of_le ms B htot]
    exact truncateContext_of_le ms B htot
  · by_cases hsl : totalChars (sysPart ms) + totalChars (lastPart ms) ≤ B
    · exact truncateContext_of_le _ B (truncateContext_within ms B hsl)
    · have hov : B < totalChars (sysPart ms) + totalChars (lastPart ms) :=
        Nat.lt_of_not_le hsl
      rw [truncateContext_overflow ms B hov]
      rcases sysPart_shape ms with hs | ⟨s, hs, hrole⟩ <;>
        rcases lastPart_shape ms with hl | ⟨lm, hl⟩
      · rw [hs, hl] at hov
        simp [totalChars] at hov
      · rw [hs, hl] at hov ⊢
        simp only [List.nil_append]
        have htot2 : ¬ totalChars [lm] ≤ B := by
          simp only [totalChars, List.map_cons, List.map_nil,
            List.sum_cons, List.sum_nil] at hov ⊢
          omega
        by_cases hr : lm.role = "system"
        · rw [truncateContext, if_neg htot2]
          simp [sysPart, historyAndLast, hr, truncLoop]
        · rw [truncateContext, if_neg htot2]
          simp [sysPart, historyAndLast, hr, truncLoop]
      · rw [hs, hl] at hov ⊢
        simp only [List.append_nil]
        have htot2 : ¬ totalChars [s] ≤ B := by
          simp only [totalChars, List.map_cons, List.map_nil,
            List.sum_cons, List.sum_nil] at hov ⊢
          omega
        rw [truncateContext, if_neg htot2]
        simp [sysPart, historyAndLast, hrole, truncLoop]
      · rw [hs, hl] at hov ⊢
        have htot2 : ¬ totalChars ([s] ++ [lm]) ≤ B := by
          simp only [totalChars, List.map_cons, List.map_nil,
            List.sum_cons, List.sum_nil, List.cons_append,
            List.nil_append, List.map_append, List.sum_append] at hov ⊢
          omega
        rw [truncateContext, if_neg htot2]
        simp [sysPart, historyAndLast, hrole, truncLoop]

end NeuralBridge
